import Mathlib

/-!
Verification development for the `ix-match` temporal matching core
(`src/lib.rs`).  The Rust program pairs RGB and NIR capture files by the
timestamp encoded in each filename.  The pipeline is:

* `make_iiq_df` builds a dataframe of (path, stem, datetime, bytes) rows,
  parsing the first 16 bytes of each stem with chrono pattern
  `%y%m%d_%H%M%S%3f`;
* `join_dataframes` sorts both frames by datetime and performs two polars
  `join_asof_by` joins with `AsofStrategy::Nearest` (RGB→NIR and NIR→RGB),
  vertically stacks them and deduplicates rows to imitate an outer join,
  then adds an absolute time-difference column `dt` (microseconds);
* `process_images` checks the directories, filters zero-byte files,
  classifies joined rows by `dt <= threshold` (threshold in nanoseconds),
  and (unless `dry_run`) moves files.

The shallow embedding below models dataframes as lists of records, the
chrono parser for the one fixed pattern used by the program, and the
polars asof-nearest scan.  Filesystem effects are represented as a list of
`FsOp` values produced by `processImages`; a Rust panic (an out-of-bounds
string slice) is modelled as a distinguished error value.
-/

namespace IxMatch

/-! ### Chrono model: parsing and formatting `%y%m%d_%H%M%S%3f`

`NaiveDateTime::parse_from_str(&stem[..16], "%y%m%d_%H%M%S%3f")` consumes
exactly sixteen ASCII characters: two-digit year, month, day, an
underscore, then two-digit hour, minute, second and three-digit
milliseconds.  chrono accepts only ASCII digits for the numeric fields,
maps `%y` values 00–68 to 2000–2068 and 69–99 to 1969–1999, and validates
the calendar date and the time-of-day ranges (seconds up to 60 for leap
seconds). -/

/-- Value of an ASCII digit character, `none` for any other character. -/
def digit? (c : Char) : Option Nat :=
  if c = '0' then some 0
  else if c = '1' then some 1
  else if c = '2' then some 2
  else if c = '3' then some 3
  else if c = '4' then some 4
  else if c = '5' then some 5
  else if c = '6' then some 6
  else if c = '7' then some 7
  else if c = '8' then some 8
  else if c = '9' then some 9
  else none

/-- Two-digit fixed-width numeric field, as chrono reads `%y`, `%m`, … -/
def pair2 (a b : Char) : Option Nat :=
  match digit? a, digit? b with
  | some x, some y => some (10 * x + y)
  | _, _ => none

/-- Three-digit fixed-width numeric field, as chrono reads `%3f`. -/
def trip3 (a b c : Char) : Option Nat :=
  match digit? a, digit? b, digit? c with
  | some x, some y, some z => some (100 * x + 10 * y + z)
  | _, _, _ => none

/-- Gregorian leap-year rule used by chrono's calendar validation. -/
def isLeapYear (y : Nat) : Bool :=
  y % 4 = 0 && (y % 100 ≠ 0 || y % 400 = 0)

/-- Number of days of month `m` in year `y`. -/
def daysInMonth (y m : Nat) : Nat :=
  if m = 2 then (if isLeapYear y then 29 else 28)
  else if m = 4 ∨ m = 6 ∨ m = 9 ∨ m = 11 then 30
  else 31

/-- Fields of a parsed date-time at millisecond precision (the information
content of a chrono `NaiveDateTime` produced by this pattern). -/
structure DT where
  year : Nat
  month : Nat
  day : Nat
  hour : Nat
  minute : Nat
  second : Nat
  millis : Nat
deriving DecidableEq, Repr

/-- Model of `NaiveDateTime::parse_from_str(s, "%y%m%d_%H%M%S%3f")` on a
16-character input: fixed-width ASCII digit fields separated by `_` at
position 7, with chrono's `%y` century mapping and calendar validation. -/
def parse16 (s : String) : Option DT :=
  match s.data with
  | [c1, c2, c3, c4, c5, c6, c7, c8, c9, c10, c11, c12, c13, c14, c15, c16] =>
    match pair2 c1 c2, pair2 c3 c4, pair2 c5 c6, pair2 c8 c9, pair2 c10 c11,
        pair2 c12 c13, trip3 c14 c15 c16 with
    | some yy, some mo, some dy, some hr, some mi, some se, some ms =>
      let year := if yy ≤ 68 then 2000 + yy else 1900 + yy
      if c7 = '_' ∧ 1 ≤ mo ∧ mo ≤ 12 ∧ 1 ≤ dy ∧ dy ≤ daysInMonth year mo ∧
          hr ≤ 23 ∧ mi ≤ 59 ∧ se ≤ 60 then
        some ⟨year, mo, dy, hr, mi, se, ms⟩
      else none
    | _, _, _, _, _, _, _ => none
  | _ => none

/-- Zero-padded two-digit decimal rendering (chrono `%y`/`%m`/…). -/
def pad2 (n : Nat) : List Char :=
  [Nat.digitChar (n / 10 % 10), Nat.digitChar (n % 10)]

/-- Zero-padded three-digit decimal rendering (chrono `%3f`). -/
def pad3 (n : Nat) : List Char :=
  [Nat.digitChar (n / 100 % 10), Nat.digitChar (n / 10 % 10), Nat.digitChar (n % 10)]

/-- Model of formatting a date-time with pattern `%y%m%d_%H%M%S%3f`
(`%y` prints the year modulo 100). -/
def format16 (d : DT) : String :=
  ⟨pad2 (d.year % 100) ++ pad2 d.month ++ pad2 d.day ++ ['_'] ++
    pad2 d.hour ++ pad2 d.minute ++ pad2 d.second ++ pad3 d.millis⟩

/-! ### Epoch encoding

chrono's `NaiveDateTime` is an absolute point on the proleptic Gregorian
timeline; `join_dataframes` compares these values as integer timestamps.
We encode the parsed fields as milliseconds since the Unix epoch using the
standard civil-calendar day count (all years produced by `parse16` are in
1969–2068, hence positive, so truncating division agrees with flooring). -/

/-- Days since 1970-01-01 of a civil date (Gregorian calendar). -/
def daysFromCivil (y m d : Int) : Int :=
  let y' := if m ≤ 2 then y - 1 else y
  let era := y' / 400
  let yoe := y' - era * 400
  let mp := (m + 9) % 12
  let doy := (153 * mp + 2) / 5 + d - 1
  let doe := yoe * 365 + yoe / 4 - yoe / 100 + doy
  era * 146097 + doe - 719468

/-- Milliseconds since the Unix epoch of a parsed date-time (chrono's
`timestamp_millis` view of the value; a leap second 60 carries over into
the next minute exactly as chrono's internal representation does). -/
def toMillis (d : DT) : Int :=
  daysFromCivil d.year d.month d.day * 86400000 +
    d.hour * 3600000 + d.minute * 60000 + d.second * 1000 + d.millis

/-! ### Entities and collection construction (`make_iiq_df`)

A discovered file is a path, a stem and the result of the metadata read
(`none` models an unreadable size).  `make_iiq_df` builds the stem column,
then the datetime column (`NaiveDateTime::parse_from_str(&stem[..16], …)`
collected into `Result`, short-circuiting at the first failure), then the
size column, failing the whole build on the first error.  The expression
`&stem[..16]` on a stem shorter than 16 bytes is a Rust panic (byte-slice
out of range), not an `Err`; the embedding keeps it as the distinguished
`sliceOutOfBounds` outcome.  Stems are taken to be ASCII, so characters
and bytes coincide. -/

structure RawFile where
  path : String
  stem : String
  bytes : Option Nat
deriving DecidableEq, Repr

inductive BuildError where
  | sliceOutOfBounds (stem : String)
  | parseError (stem : String)
  | metadataError (path : String)
deriving DecidableEq, Repr

structure Entity where
  path : String
  stem : String
  datetime : Int
  bytes : Nat
deriving DecidableEq, Repr

/-- Datetime cell of one stem: `NaiveDateTime::parse_from_str(&stem[..16],
"%y%m%d_%H%M%S%3f")` with its `anyhow` context, including the Rust panic
on stems shorter than sixteen bytes. -/
def parseStemDatetime (stem : String) : Except BuildError Int :=
  if stem.length < 16 then .error (.sliceOutOfBounds stem)
  else
    match parse16 ⟨stem.data.take 16⟩ with
    | some d => .ok (toMillis d)
    | none => .error (.parseError stem)

/-- Size cell of one file: `fs::metadata(p)?.len()`. -/
def readMetadata (f : RawFile) : Except BuildError Nat :=
  match f.bytes with
  | some b => .ok b
  | none => .error (.metadataError f.path)

/-- Rust's `collect::<Result<Vec<_>>>()`: the list of values, or the first
error encountered. -/
def collectExcept {ε β : Type} : List (Except ε β) → Except ε (List β)
  | [] => .ok []
  | .error e :: _ => .error e
  | .ok b :: rest =>
    match collectExcept rest with
    | .error e => .error e
    | .ok bs => .ok (b :: bs)

/-- Model of `make_iiq_df`: builds the datetime column, then the size
column, combining them into one entity row per input file. -/
def makeIiqDf (files : List RawFile) : Except BuildError (List Entity) :=
  match collectExcept (files.map fun f => parseStemDatetime f.stem) with
  | .error e => .error e
  | .ok dts =>
    match collectExcept (files.map readMetadata) with
    | .error e => .error e
    | .ok szs =>
      .ok ((files.zip (dts.zip szs)).map fun p => ⟨p.1.path, p.1.stem, p.2.1, p.2.2⟩)

/-! ### Nearest-neighbor lookup (polars `AsofStrategy::Nearest`)

polars' asof join scans the sorted right keys for the first value greater
than or equal to the left key; the match is that value or the one just
before it, whichever is at the smaller absolute distance, with ties going
to the earlier (previous) value.  When every right key is below the left
key the last right row matches, and an empty right side yields no match
(a null row, never an error).  `nearestFrom` carries the most recent
right value strictly below the target, mirroring the scan state. -/

def nearestFrom (t : Int) (best : Entity) : List Entity → Entity
  | [] => best
  | e :: es =>
    if t ≤ e.datetime then
      if t - best.datetime ≤ e.datetime - t then best else e
    else nearestFrom t e es

/-- Match of one left key `t` against a right collection sorted ascending
by datetime: polars asof-nearest semantics. -/
def nearest (t : Int) : List Entity → Option Entity
  | [] => none
  | e :: es => if t ≤ e.datetime then some e else some (nearestFrom t e es)

/-! ### The pairwise join (`join_dataframes`)

Both frames are sorted by datetime; an asof-nearest join is taken in each
direction, the two results are vertically stacked and deduplicated
(`unique` over all columns, keeping any one representative) to imitate an
outer join, and an absolute time-difference column `dt` is added.  The
datetimes are cast to microseconds before subtracting, so `dt` is
`1000 * |Δms|` microseconds; rows with a missing side get a null `dt`.
polars computes `dt` after deduplication, but since equal rows have equal
`dt` the embedding attaches it when the row is produced. -/

structure JoinedRow where
  rgb : Option Entity
  nir : Option Entity
  dt : Option Int
deriving DecidableEq, Repr

/-- One output row from a pair of optional sides, with its `dt` cell in
microseconds. -/
def mkRow (r n : Option Entity) : JoinedRow :=
  ⟨r, n,
    match r, n with
    | some a, some b => some (1000 * |a.datetime - b.datetime|)
    | _, _ => none⟩

/-- The `sort(["Datetime"], …)` step. -/
def sortByDatetime (l : List Entity) : List Entity :=
  l.insertionSort fun a b => a.datetime ≤ b.datetime

/-- Model of `join_dataframes`. -/
def joinDataframes (rgbDf nirDf : List Entity) : List JoinedRow :=
  let rgbS := sortByDatetime rgbDf
  let nirS := sortByDatetime nirDf
  let matchedRgb := rgbS.map fun r => mkRow (some r) (nearest r.datetime nirS)
  let matchedNir := nirS.map fun n => mkRow (nearest n.datetime rgbS) (some n)
  (matchedRgb ++ matchedNir).dedup

/-! ### Threshold classification (`process_images`, split step)

The threshold arrives as `match_threshold.as_nanos() as i64`, a duration
in nanoseconds; `dt` is a duration in microseconds.  polars compares them
after unifying the units, which for integer values is exactly
`1000 * dt ≤ thresh`.  A null `dt` (missing side) compares as false, so
such rows are never matched.  The unmatched frames are anti-joins of the
joined frame against the matched frame on the side's path column (null
keys never match), projected to the stem and path columns and
deduplicated. -/

def isMatched (threshNanos : Int) (row : JoinedRow) : Bool :=
  match row.dt with
  | some d => decide (1000 * d ≤ threshNanos)
  | none => false

def matchedDf (threshNanos : Int) (joint : List JoinedRow) : List JoinedRow :=
  joint.filter (isMatched threshNanos)

def rgbPath? (row : JoinedRow) : Option String := row.rgb.map (·.path)

def nirPath? (row : JoinedRow) : Option String := row.nir.map (·.path)

def rgbStem? (row : JoinedRow) : Option String := row.rgb.map (·.stem)

def nirStem? (row : JoinedRow) : Option String := row.nir.map (·.stem)

/-- Join-key equality of two optional path cells: a null key matches
nothing (polars `join_nulls = false`). -/
def optPathEq (a b : Option String) : Bool :=
  match a, b with
  | some x, some y => decide (x = y)
  | _, _ => false

/-- Rows of `joint` whose key under `proj` appears in no matched row
(polars anti join), projected to `(stem, path)` and deduplicated. -/
def unmatchedSide (proj stemProj : JoinedRow → Option String)
    (threshNanos : Int) (joint : List JoinedRow) : List (Option String × Option String) :=
  ((joint.filter fun row =>
      !(matchedDf threshNanos joint).any fun m => optPathEq (proj m) (proj row)).map
    fun row => (stemProj row, proj row)).dedup

def unmatchedRgbDf (threshNanos : Int) (joint : List JoinedRow) :
    List (Option String × Option String) :=
  unmatchedSide rgbPath? rgbStem? threshNanos joint

def unmatchedNirDf (threshNanos : Int) (joint : List JoinedRow) :
    List (Option String × Option String) :=
  unmatchedSide nirPath? nirStem? threshNanos joint

/-! ### The entry point (`process_images`)

Filesystem effects are reified: the returned list of `FsOp` records, in
program order, every `fs::create_dir_all` and `fs::rename` the run would
perform.  Directory discovery and file listing are external collaborators,
so the two existence flags and the two lists of discovered files are
inputs.  `move_files` flattens the path column, skipping null cells. -/

inductive FsOp where
  | createDir (dir : String)
  | rename (src : String) (destDir : String)
deriving DecidableEq, Repr

inductive PIError where
  | bothDirsMissing
  | rgbDirMissing
  | nirDirMissing
  | build (e : BuildError)
deriving DecidableEq, Repr

/-- Renames of every non-null path cell into `destDir` (`move_files`). -/
def movePathOps (paths : List (Option String)) (destDir : String) : List FsOp :=
  (paths.filterMap id).map fun p => FsOp.rename p destDir

/-- Model of `process_images`. -/
def processImages (rgbExists nirExists : Bool) (rgbDir nirDir : String)
    (rgbFiles nirFiles : List RawFile) (threshNanos : Int)
    (keepEmptyFiles dryRun : Bool) :
    List FsOp × Except PIError (Nat × Nat × Nat × Nat × Nat) :=
  if !rgbExists || !nirExists then ([], .error .bothDirsMissing)
  else if !rgbExists then ([], .error .rgbDirMissing)
  else if !nirExists then ([], .error .nirDirMissing)
  else
    match makeIiqDf rgbFiles with
    | .error e => ([], .error (.build e))
    | .ok rgbDf0 =>
      match makeIiqDf nirFiles with
      | .error e => ([], .error (.build e))
      | .ok nirDf0 =>
        let rgbEmpty := rgbDf0.filter fun en => decide (en.bytes ≤ 0)
        let nirEmpty := nirDf0.filter fun en => decide (en.bytes ≤ 0)
        let rgbDf := if !keepEmptyFiles then rgbDf0.filter (fun en => decide (0 < en.bytes)) else rgbDf0
        let nirDf := if !keepEmptyFiles then nirDf0.filter (fun en => decide (0 < en.bytes)) else nirDf0
        let joint := joinDataframes rgbDf nirDf
        let matched := matchedDf threshNanos joint
        let unmatchedRgb := unmatchedRgbDf threshNanos joint
        let unmatchedNir := unmatchedNirDf threshNanos joint
        let ops :=
          if !dryRun then
            movePathOps (matched.map rgbPath?) rgbDir ++
            movePathOps (matched.map nirPath?) nirDir ++
            (if 0 < unmatchedRgb.length then
              FsOp.createDir (rgbDir ++ "/unmatched") ::
                movePathOps (unmatchedRgb.map (·.2)) (rgbDir ++ "/unmatched")
            else []) ++
            (if 0 < unmatchedNir.length then
              FsOp.createDir (nirDir ++ "/unmatched") ::
                movePathOps (unmatchedNir.map (·.2)) (nirDir ++ "/unmatched")
            else []) ++
            (if !keepEmptyFiles then
              (if 0 < rgbEmpty.length then
                FsOp.createDir (rgbDir ++ "/empty") ::
                  movePathOps (rgbEmpty.map fun en => some en.path) (rgbDir ++ "/empty")
              else []) ++
              (if 0 < nirEmpty.length then
                FsOp.createDir (nirDir ++ "/empty") ::
                  movePathOps (nirEmpty.map fun en => some en.path) (nirDir ++ "/empty")
              else [])
            else [])
          else []
        (ops, .ok (rgbFiles.length, nirFiles.length, matched.length,
          rgbEmpty.length, nirEmpty.length))

/-- One discovered file fails entity construction: its stem does not
yield a parsed timestamp, or its metadata cannot be read. -/
def buildFails (f : RawFile) : Prop :=
  (∃ s, parseStemDatetime f.stem = .error s) ∨ f.bytes = none

instance (f : RawFile) : Decidable (buildFails f) := by
  unfold buildFails
  cases h : parseStemDatetime f.stem with
  | error e => exact .isTrue (Or.inl ⟨e, rfl⟩)
  | ok v =>
    cases hb : f.bytes with
    | none => exact .isTrue (Or.inr rfl)
    | some b =>
      refine .isFalse ?_
      rintro (⟨s, hs⟩ | hn)
      · exact Except.noConfusion hs
      · exact Option.noConfusion hn

/-! ### Spec-side greedy matcher (for comparison with the code's join)

Modelled from the spec: §4.3 describes a greedy slot-claiming algorithm —
designate the shorter collection as driver, initialise one slot per target
entity, and let each driver entity in collection order claim the slot of
its nearest target exactly when its delta is strictly smaller than the
slot's current best.  This algorithm does not appear in `src/`; it is
reproduced here only to state what "never the strictly-closest claimant"
means when comparing the spec's account with the code's join. -/

def specClaimStep (targets : List Entity)
    (slots : List (Entity × Option (Entity × Int))) (d : Entity) :
    List (Entity × Option (Entity × Int)) :=
  match nearest d.datetime targets with
  | none => slots
  | some t =>
    slots.map fun s =>
      if s.1 = t then
        match s.2 with
        | none => (s.1, some (d, |d.datetime - t.datetime|))
        | some best =>
          if |d.datetime - t.datetime| < best.2 then
            (s.1, some (d, |d.datetime - t.datetime|))
          else s
      else s

/-- Modelled from the spec: the final slot assignment of §4.3's greedy
claiming, one slot per (sorted) target entity. -/
def specSlots (driver target : List Entity) :
    List (Entity × Option (Entity × Int)) :=
  driver.foldl (specClaimStep (sortByDatetime target))
    ((sortByDatetime target).map fun t => (t, none))

/-- Modelled from the spec: whether driver entity `d` ends up as the
claimant of some target slot. -/
def specIsClaimant (driver target : List Entity) (d : Entity) : Bool :=
  (specSlots driver target).any fun s =>
    match s.2 with
    | some c => decide (c.1 = d)
    | none => false

/-! ## Theorems -/

theorem digit?_roundtrip {c : Char} {n : Nat} (h : digit? c = some n) :
    n < 10 ∧ Nat.digitChar n = c := by
  unfold digit? at h
  split_ifs at h
  all_goals first
    | exact Option.noConfusion h
    | (simp only [Option.some.injEq] at h
       subst h
       subst ‹c = _›
       exact ⟨by decide, by decide⟩)

theorem pair2_roundtrip {a b : Char} {n : Nat} (h : pair2 a b = some n) :
    n < 100 ∧ pad2 n = [a, b] := by
  unfold pair2 at h
  cases ha : digit? a with
  | none => rw [ha] at h; exact absurd h (by simp)
  | some x =>
    cases hb : digit? b with
    | none => rw [ha, hb] at h; exact absurd h (by simp)
    | some y =>
      rw [ha, hb] at h
      obtain ⟨hx, hxc⟩ := digit?_roundtrip ha
      obtain ⟨hy, hyc⟩ := digit?_roundtrip hb
      have hn : n = 10 * x + y := by
        simpa using h.symm
      subst hn
      constructor
      · omega
      · have h1 : (10 * x + y) / 10 % 10 = x := by omega
        have h2 : (10 * x + y) % 10 = y := by omega
        simp [pad2, h1, h2, hxc, hyc]

theorem trip3_roundtrip {a b c : Char} {n : Nat} (h : trip3 a b c = some n) :
    n < 1000 ∧ pad3 n = [a, b, c] := by
  unfold trip3 at h
  cases ha : digit? a with
  | none => rw [ha] at h; exact absurd h (by simp)
  | some x =>
    cases hb : digit? b with
    | none => rw [ha, hb] at h; exact absurd h (by simp)
    | some y =>
      cases hc : digit? c with
      | none => rw [ha, hb, hc] at h; exact absurd h (by simp)
      | some z =>
        rw [ha, hb, hc] at h
        obtain ⟨hx, hxc⟩ := digit?_roundtrip ha
        obtain ⟨hy, hyc⟩ := digit?_roundtrip hb
        obtain ⟨hz, hzc⟩ := digit?_roundtrip hc
        have hn : n = 100 * x + 10 * y + z := by
          simpa using h.symm
        subst hn
        constructor
        · omega
        · have h1 : (100 * x + 10 * y + z) / 100 % 10 = x := by omega
          have h2 : (100 * x + 10 * y + z) / 10 % 10 = y := by omega
          have h3 : (100 * x + 10 * y + z) % 10 = z := by omega
          simp [pad3, h1, h2, h3, hxc, hyc, hzc]

theorem parse16_format16 {s : String} {d : DT} (h : parse16 s = some d) :
    format16 d = s := by
  obtain ⟨data⟩ := s
  unfold parse16 at h
  simp only at h
  split at h
  case h_2 => exact Option.noConfusion h
  case h_1 c1 c2 c3 c4 c5 c6 c7 c8 c9 c10 c11 c12 c13 c14 c15 c16 =>
    split at h
    case h_2 => exact Option.noConfusion h
    case h_1 yy mo dy hr mi se ms hyy hmo hdy hhr hmi hse hms =>
      obtain ⟨hyyb, hyyc⟩ := pair2_roundtrip hyy
      obtain ⟨-, hmoc⟩ := pair2_roundtrip hmo
      obtain ⟨-, hdyc⟩ := pair2_roundtrip hdy
      obtain ⟨-, hhrc⟩ := pair2_roundtrip hhr
      obtain ⟨-, hmic⟩ := pair2_roundtrip hmi
      obtain ⟨-, hsec⟩ := pair2_roundtrip hse
      obtain ⟨-, hmsc⟩ := trip3_roundtrip hms
      split at h
      · split at h
        · rename_i hcond
          obtain ⟨hsep, -⟩ := hcond
          simp only [Option.some.injEq] at h
          subst h
          simp only [format16]
          rw [show (2000 + yy) % 100 = yy by omega]
          simp only [hyyc, hmoc, hdyc, hhrc, hmic, hsec, hmsc, hsep]
          rfl
        · exact Option.noConfusion h
      · split at h
        · rename_i hcond
          obtain ⟨hsep, -⟩ := hcond
          simp only [Option.some.injEq] at h
          subst h
          simp only [format16]
          rw [show (1900 + yy) % 100 = yy by omega]
          simp only [hyyc, hmoc, hdyc, hhrc, hmic, hsec, hmsc, hsep]
          rfl
        · exact Option.noConfusion h

theorem collectExcept_mem_error {ε β : Type} {l : List (Except ε β)} {e : ε}
    (hx : Except.error e ∈ l) : ∃ e', collectExcept l = Except.error e' := by
  induction l with
  | nil => cases hx
  | cons a as ih =>
    match a with
    | .error e0 => exact ⟨e0, rfl⟩
    | .ok b =>
      have hx' : Except.error e ∈ as := by
        rcases List.mem_cons.mp hx with h | h
        · exact Except.noConfusion h
        · exact h
      obtain ⟨e', he'⟩ := ih hx'
      refine ⟨e', ?_⟩
      simp only [collectExcept, he']

theorem collectExcept_ok_mem {ε β : Type} {l : List (Except ε β)} {bs : List β}
    (h : collectExcept l = .ok bs) : ∀ x ∈ l, ∃ b, x = .ok b := by
  induction l generalizing bs with
  | nil => intro x hx; cases hx
  | cons a as ih =>
    intro x hx
    match a with
    | .error e0 => exact Except.noConfusion h
    | .ok b =>
      rcases List.mem_cons.mp hx with hxa | hxas
      · exact ⟨b, hxa⟩
      · simp only [collectExcept] at h
        split at h
        · exact Except.noConfusion h
        · exact ih ‹_› x hxas

theorem abs_sub_of_le {x t : Int} (h : x ≤ t) : |x - t| = t - x := by
  rw [abs_of_nonpos (by omega), neg_sub]

theorem abs_sub_of_ge {x t : Int} (h : t ≤ x) : |x - t| = x - t :=
  abs_of_nonneg (by omega)

theorem mem_sortByDatetime {l : List Entity} {x : Entity} (h : x ∈ l) :
    x ∈ sortByDatetime l :=
  (List.perm_insertionSort _ l).mem_iff.mpr h

theorem join_mem_rgb {rgbDf nirDf : List Entity} {r : Entity} (h : r ∈ rgbDf) :
    ∃ row ∈ joinDataframes rgbDf nirDf, row.rgb = some r := by
  refine ⟨mkRow (some r) (nearest r.datetime (sortByDatetime nirDf)), ?_, rfl⟩
  unfold joinDataframes
  rw [List.mem_dedup]
  exact List.mem_append_left _ (List.mem_map_of_mem _ (mem_sortByDatetime h))

theorem join_mem_nir {rgbDf nirDf : List Entity} {n : Entity} (h : n ∈ nirDf) :
    ∃ row ∈ joinDataframes rgbDf nirDf, row.nir = some n := by
  refine ⟨mkRow (nearest n.datetime (sortByDatetime rgbDf)) (some n), ?_, rfl⟩
  unfold joinDataframes
  rw [List.mem_dedup]
  exact List.mem_append_right _ (List.mem_map_of_mem _ (mem_sortByDatetime h))

theorem makeIiqDf_error_of_buildFails {files : List RawFile} {f : RawFile}
    (hf : f ∈ files) (hfail : buildFails f) :
    ∃ e, makeIiqDf files = .error e := by
  unfold makeIiqDf
  rcases hfail with ⟨s, hs⟩ | hn
  · have hmem : Except.error s ∈ files.map fun g => parseStemDatetime g.stem :=
      hs ▸ List.mem_map_of_mem _ hf
    obtain ⟨e', he'⟩ := collectExcept_mem_error hmem
    exact ⟨e', by rw [he']⟩
  · have hrm : readMetadata f = .error (.metadataError f.path) := by
      unfold readMetadata; rw [hn]
    have hmem : Except.error (BuildError.metadataError f.path) ∈ files.map readMetadata :=
      hrm ▸ List.mem_map_of_mem _ hf
    obtain ⟨e', he'⟩ := collectExcept_mem_error hmem
    cases hc : collectExcept (files.map fun g => parseStemDatetime g.stem) with
    | error e0 => exact ⟨e0, rfl⟩
    | ok dts => exact ⟨e', by rw [he']⟩

theorem nearestFrom_mem (t : Int) (best : Entity) (l : List Entity) :
    nearestFrom t best l ∈ best :: l := by
  induction l generalizing best with
  | nil => exact List.mem_singleton.mpr rfl
  | cons e es ih =>
    unfold nearestFrom
    split
    · split
      · exact List.mem_cons_self _ _
      · exact List.mem_cons_of_mem _ (List.mem_cons_self _ _)
    · exact List.mem_cons_of_mem _ (ih e)

theorem nearestFrom_spec (t : Int) (best : Entity) (l : List Entity)
    (hb : best.datetime < t)
    (hs : List.Pairwise (fun a b : Entity => a.datetime ≤ b.datetime) (best :: l)) :
    (∀ u ∈ best :: l,
      |(nearestFrom t best l).datetime - t| ≤ |u.datetime - t|) ∧
    (∀ u ∈ best :: l,
      |u.datetime - t| = |(nearestFrom t best l).datetime - t| →
      u.datetime ≠ (nearestFrom t best l).datetime →
      (nearestFrom t best l).datetime < t) := by
  induction l generalizing best with
  | nil =>
    constructor
    · intro u hu
      rw [List.mem_singleton] at hu
      subst hu
      exact le_refl _
    · intro u _ _ _
      exact hb
  | cons e es ih =>
    have hbe : best.datetime ≤ e.datetime :=
      (List.pairwise_cons.mp hs).1 e (List.mem_cons_self e es)
    have hs' : List.Pairwise (fun a b : Entity => a.datetime ≤ b.datetime) (e :: es) :=
      (List.pairwise_cons.mp hs).2
    have hees : ∀ u ∈ es, e.datetime ≤ u.datetime := (List.pairwise_cons.mp hs').1
    by_cases h1 : t ≤ e.datetime
    · by_cases h2 : t - best.datetime ≤ e.datetime - t
      · have hres : nearestFrom t best (e :: es) = best := by
          unfold nearestFrom
          rw [if_pos h1, if_pos h2]
        rw [hres]
        constructor
        · intro u hu
          rcases List.mem_cons.mp hu with rfl | hu'
          · exact le_refl _
          rcases List.mem_cons.mp hu' with rfl | hu''
          · rw [abs_sub_of_le (le_of_lt hb), abs_sub_of_ge h1]
            omega
          · have heu : e.datetime ≤ u.datetime := hees u hu''
            rw [abs_sub_of_le (le_of_lt hb), abs_sub_of_ge (le_trans h1 heu)]
            omega
        · intro u _ _ _
          exact hb
      · push_neg at h2
        have hres : nearestFrom t best (e :: es) = e := by
          unfold nearestFrom
          rw [if_pos h1, if_neg (not_le.mpr h2)]
        rw [hres]
        have habs_e : |e.datetime - t| = e.datetime - t := abs_sub_of_ge h1
        have habs_b : |best.datetime - t| = t - best.datetime := abs_sub_of_le (le_of_lt hb)
        constructor
        · intro u hu
          rcases List.mem_cons.mp hu with rfl | hu'
          · rw [habs_b, habs_e]; omega
          rcases List.mem_cons.mp hu' with rfl | hu''
          · exact le_refl _
          · have heu : e.datetime ≤ u.datetime := hees u hu''
            rw [habs_e, abs_sub_of_ge (le_trans h1 heu)]
            omega
        · intro u hu htie hne
          exfalso
          rcases List.mem_cons.mp hu with rfl | hu'
          · rw [habs_b, habs_e] at htie; omega
          rcases List.mem_cons.mp hu' with rfl | hu''
          · exact hne rfl
          · have heu : e.datetime ≤ u.datetime := hees u hu''
            rw [habs_e, abs_sub_of_ge (le_trans h1 heu)] at htie
            omega
    · push_neg at h1
      have hres : nearestFrom t best (e :: es) = nearestFrom t e es := by
        unfold nearestFrom
        rw [if_neg (not_le.mpr h1)]
        cases es <;> rfl
      rw [hres]
      obtain ⟨ihmin, ihtie⟩ := ih e h1 hs'
      have hmin_e : |(nearestFrom t e es).datetime - t| ≤ |e.datetime - t| :=
        ihmin e (List.mem_cons_self e es)
      constructor
      · intro u hu
        rcases List.mem_cons.mp hu with rfl | hu'
        · have h3 : |e.datetime - t| ≤ |u.datetime - t| := by
            rw [abs_sub_of_le (le_of_lt h1), abs_sub_of_le (le_of_lt hb)]
            omega
          exact le_trans hmin_e h3
        · exact ihmin u hu'
      · intro u hu htie hne
        rcases List.mem_cons.mp hu with rfl | hu'
        · by_cases hme : (nearestFrom t e es).datetime = e.datetime
          · rw [hme]; exact h1
          · refine ihtie e (List.mem_cons_self e es) ?_ fun hc => hme hc.symm
            have h3 : |e.datetime - t| ≤ |u.datetime - t| := by
              rw [abs_sub_of_le (le_of_lt h1), abs_sub_of_le (le_of_lt hb)]
              omega
            omega
        · exact ihtie u hu' htie hne

/-! ## Claims -/

/-- C9: for every valid 16-character timestamp prefix `s` matching
`yyMMdd_HHmmssSSS`, parsing `s` to a date-time with millisecond precision
and formatting the result back with the same pattern yields `s` again. -/
theorem c9_parse_format_roundtrip {s : String} {d : DT}
    (h : parse16 s = some d) : format16 d = s :=
  parse16_format16 h

/-- Witness for C9 at the prefix `210101_120000000`. -/
theorem c9_parse_format_roundtrip_witness :
    format16 ⟨2021, 1, 1, 12, 0, 0, 0⟩ = "210101_120000000" :=
  c9_parse_format_roundtrip
    (by decide : parse16 "210101_120000000" = some ⟨2021, 1, 1, 12, 0, 0, 0⟩)

/-- C4 (code bug): the claim says a stem shorter than 16 characters makes
entity construction return a `ParseError` value; the code instead
evaluates `&stem[..16]`, which on such a stem is an out-of-range string
slice — a Rust panic aborting the process, not an error value.  The
embedding records that outcome as the distinguished `sliceOutOfBounds`
marker, which is what the collection build produces at the failing
input. -/
theorem c4_short_stem_aborts_with_slice_oob :
    makeIiqDf [⟨"/rgb/short.iiq", "short", some 7⟩]
      = .error (.sliceOutOfBounds "short") := by
  rfl

/-- C1 counterexample: with an empty RGB channel and a one-file NIR
channel, `process_images` does not fail with any error — it returns the
counts `(0, 1, 0, 0, 0)`, the single NIR entity coming out unmatched. -/
theorem c1_counterexample :
    processImages true true "rgb" "nir" []
      [⟨"nir/210101_120000000.iiq", "210101_120000000", some 100⟩]
      200000000 true true
      = ([], .ok (0, 1, 0, 0, 0)) := by
  rfl

/-- C1 (amended): when either input collection is empty, the pairwise
join succeeds instead of failing: every produced entry carries a null
delta (the empty side being absent from it), so the matched frame is
empty — the run reports matchedCount 0 — and every entity of the
non-empty collection still appears in some entry. -/
theorem c1_empty_channel_joins_without_error (rgbDf nirDf : List Entity)
    (threshNanos : Int) (h : rgbDf = [] ∨ nirDf = []) :
    (∀ row ∈ joinDataframes rgbDf nirDf,
      row.dt = none ∧ isMatched threshNanos row = false ∧
      (rgbDf = [] → row.rgb = none) ∧ (nirDf = [] → row.nir = none)) ∧
    matchedDf threshNanos (joinDataframes rgbDf nirDf) = [] ∧
    (∀ r ∈ rgbDf, ∃ row ∈ joinDataframes rgbDf nirDf, row.rgb = some r) ∧
    (∀ n ∈ nirDf, ∃ row ∈ joinDataframes rgbDf nirDf, row.nir = some n) := by
  have hshape : ∀ row ∈ joinDataframes rgbDf nirDf,
      row.dt = none ∧ (rgbDf = [] → row.rgb = none) ∧ (nirDf = [] → row.nir = none) := by
    intro row hrow
    unfold joinDataframes at hrow
    rw [List.mem_dedup] at hrow
    rcases h with rfl | rfl
    · rcases List.mem_append.mp hrow with hl | hr
      · exact absurd hl (by simp [sortByDatetime, List.insertionSort])
      · obtain ⟨n, hn, rfl⟩ := List.mem_map.mp hr
        refine ⟨rfl, fun _ => rfl, fun he => ?_⟩
        subst he
        exact absurd hn (by simp [sortByDatetime, List.insertionSort])
    · rcases List.mem_append.mp hrow with hl | hr
      · obtain ⟨r, hrm, rfl⟩ := List.mem_map.mp hl
        refine ⟨rfl, fun he => ?_, fun _ => rfl⟩
        subst he
        exact absurd hrm (by simp [sortByDatetime, List.insertionSort])
      · exact absurd hr (by simp [sortByDatetime, List.insertionSort])
  have hnm : ∀ row ∈ joinDataframes rgbDf nirDf, isMatched threshNanos row = false := by
    intro row hrow
    unfold isMatched
    rw [(hshape row hrow).1]
  refine ⟨fun row hrow => ⟨(hshape row hrow).1, hnm row hrow,
      (hshape row hrow).2.1, (hshape row hrow).2.2⟩, ?_,
    fun _ hr => join_mem_rgb hr, fun _ hn => join_mem_nir hn⟩
  unfold matchedDf
  refine List.filter_eq_nil_iff.mpr fun row hrow => ?_
  rw [hnm row hrow]
  exact Bool.false_ne_true

/-- Witness for C1's amended statement on a one-entity NIR channel
against an empty RGB channel. -/
theorem c1_empty_channel_witness :
    matchedDf 7 (joinDataframes [] [⟨"n", "n", 0, 5⟩]) = [] ∧
    ∃ row ∈ joinDataframes [] [⟨"n", "n", 0, 5⟩], row.nir = some ⟨"n", "n", 0, 5⟩ :=
  ⟨(c1_empty_channel_joins_without_error [] [⟨"n", "n", 0, 5⟩] 7 (Or.inl rfl)).2.1,
    (c1_empty_channel_joins_without_error [] [⟨"n", "n", 0, 5⟩] 7 (Or.inl rfl)).2.2.2
      ⟨"n", "n", 0, 5⟩ (by decide)⟩

/-- C2 counterexample: NIR (driver, 2 entities at times 0 and 3) against
RGB (target, 3 entities at times 1, 100, 1000).  The driver entity at
time 3 is never the strictly-closest claimant of any target slot under
the spec's greedy claiming, yet it appears in entries of the code's
joined result — it is not silently absent. -/
theorem c2_counterexample :
    ([(⟨"n0", "n0", 0, 100⟩ : Entity), ⟨"n3", "n3", 3, 100⟩].length <
      [(⟨"r1", "r1", 1, 100⟩ : Entity), ⟨"r100", "r100", 100, 100⟩,
        ⟨"r1000", "r1000", 1000, 100⟩].length) ∧
    specIsClaimant [⟨"n0", "n0", 0, 100⟩, ⟨"n3", "n3", 3, 100⟩]
      [⟨"r1", "r1", 1, 100⟩, ⟨"r100", "r100", 100, 100⟩, ⟨"r1000", "r1000", 1000, 100⟩]
      ⟨"n3", "n3", 3, 100⟩ = false ∧
    (joinDataframes
      [⟨"r1", "r1", 1, 100⟩, ⟨"r100", "r100", 100, 100⟩, ⟨"r1000", "r1000", 1000, 100⟩]
      [⟨"n0", "n0", 0, 100⟩, ⟨"n3", "n3", 3, 100⟩]).any
        (fun row => row.nir == some ⟨"n3", "n3", 3, 100⟩) = true := by
  decide

/-- C2 (amended): no entity of either collection is absent from the
joined result: the two stacked asof joins give every RGB entity and every
NIR entity (driver or target side alike) at least one entry. -/
theorem c2_every_entity_appears (rgbDf nirDf : List Entity) :
    (∀ r ∈ rgbDf, ∃ row ∈ joinDataframes rgbDf nirDf, row.rgb = some r) ∧
    (∀ n ∈ nirDf, ∃ row ∈ joinDataframes rgbDf nirDf, row.nir = some n) :=
  ⟨fun _ h => join_mem_rgb h, fun _ h => join_mem_nir h⟩

/-- Witness for C2's amended statement. -/
theorem c2_every_entity_appears_witness :
    ∃ row ∈ joinDataframes [⟨"a", "a", 1, 9⟩] [⟨"b", "b", 4, 9⟩],
      row.rgb = some ⟨"a", "a", 1, 9⟩ :=
  (c2_every_entity_appears [⟨"a", "a", 1, 9⟩] [⟨"b", "b", 4, 9⟩]).1
    ⟨"a", "a", 1, 9⟩ (by decide)

/-- C3 counterexample: RGB (target, 3 entities at times 0, 100, 200)
against NIR (2 entities at times 1 and 2).  The target entity at time 0
appears in two entries of the joined result, so "exactly once" fails. -/
theorem c3_counterexample :
    ([(⟨"h1", "h1", 1, 100⟩ : Entity), ⟨"h2", "h2", 2, 100⟩].length <
      [(⟨"g0", "g0", 0, 100⟩ : Entity), ⟨"g100", "g100", 100, 100⟩,
        ⟨"g200", "g200", 200, 100⟩].length) ∧
    (joinDataframes
      [⟨"g0", "g0", 0, 100⟩, ⟨"g100", "g100", 100, 100⟩, ⟨"g200", "g200", 200, 100⟩]
      [⟨"h1", "h1", 1, 100⟩, ⟨"h2", "h2", 2, 100⟩]).countP
        (fun row => row.rgb == some ⟨"g0", "g0", 0, 100⟩) = 2 := by
  decide

/-- C3 (amended): every entity of the longer (or equal-length) target
collection — whichever side that is — appears at least once in that
side's slots of the joined result (none is dropped), but it may appear
more than once. -/
theorem c3_target_entity_at_least_once (rgbDf nirDf : List Entity) :
    (nirDf.length ≤ rgbDf.length → ∀ r ∈ rgbDf,
      1 ≤ (joinDataframes rgbDf nirDf).countP fun row => row.rgb == some r) ∧
    (rgbDf.length ≤ nirDf.length → ∀ n ∈ nirDf,
      1 ≤ (joinDataframes rgbDf nirDf).countP fun row => row.nir == some n) := by
  constructor
  · intro _ r hr
    obtain ⟨row, hrow, hx⟩ := @join_mem_rgb rgbDf nirDf r hr
    refine List.countP_pos_iff.mpr ⟨row, hrow, ?_⟩
    rw [hx]
    simp
  · intro _ n hn
    obtain ⟨row, hrow, hx⟩ := @join_mem_nir rgbDf nirDf n hn
    refine List.countP_pos_iff.mpr ⟨row, hrow, ?_⟩
    rw [hx]
    simp

/-- Witness for C3's amended statement at equal-length collections,
exercising both target sides. -/
theorem c3_target_entity_at_least_once_witness :
    (1 ≤ (joinDataframes [⟨"a", "a", 1, 9⟩] [⟨"b", "b", 4, 9⟩]).countP
      fun row => row.rgb == some ⟨"a", "a", 1, 9⟩) ∧
    (1 ≤ (joinDataframes [⟨"a", "a", 1, 9⟩] [⟨"b", "b", 4, 9⟩]).countP
      fun row => row.nir == some ⟨"b", "b", 4, 9⟩) :=
  ⟨(c3_target_entity_at_least_once [⟨"a", "a", 1, 9⟩] [⟨"b", "b", 4, 9⟩]).1
      (by decide) ⟨"a", "a", 1, 9⟩ (by decide),
    (c3_target_entity_at_least_once [⟨"a", "a", 1, 9⟩] [⟨"b", "b", 4, 9⟩]).2
      (by decide) ⟨"b", "b", 4, 9⟩ (by decide)⟩

/-- C5: a joined entry with both sides present whose delta equals the
supplied threshold exactly is classified matched — it lands in the
matched frame and its paths are excluded from both unmatched frames (the
boundary comparison `dt <= threshold` is inclusive). -/
theorem c5_threshold_boundary_inclusive (joint : List JoinedRow)
    (threshNanos d : Int) (row : JoinedRow) (a b : Entity)
    (hrow : row ∈ joint) (ha : row.rgb = some a) (hb : row.nir = some b)
    (hdt : row.dt = some d) (hexact : 1000 * d = threshNanos) :
    row ∈ matchedDf threshNanos joint ∧
    (∀ q ∈ unmatchedRgbDf threshNanos joint, q.2 ≠ some a.path) ∧
    (∀ q ∈ unmatchedNirDf threshNanos joint, q.2 ≠ some b.path) := by
  have hm : isMatched threshNanos row = true := by
    unfold isMatched
    rw [hdt]
    simp
    omega
  have hrowm : row ∈ matchedDf threshNanos joint := List.mem_filter.mpr ⟨hrow, hm⟩
  refine ⟨hrowm, ?_, ?_⟩
  · intro q hq hqp
    unfold unmatchedRgbDf unmatchedSide at hq
    rw [List.mem_dedup] at hq
    obtain ⟨row', hrow', hq'⟩ := List.mem_map.mp hq
    obtain ⟨-, hkeep⟩ := List.mem_filter.mp hrow'
    have hpath' : rgbPath? row' = some a.path := by
      have : q.2 = rgbPath? row' := by rw [← hq']
      rw [← this, hqp]
    have hany : ((matchedDf threshNanos joint).any
        fun m => optPathEq (rgbPath? m) (rgbPath? row')) = true := by
      refine List.any_eq_true.mpr ⟨row, hrowm, ?_⟩
      rw [hpath']
      unfold rgbPath? optPathEq
      rw [ha]
      simp
    rw [hany] at hkeep
    exact Bool.noConfusion hkeep
  · intro q hq hqp
    unfold unmatchedNirDf unmatchedSide at hq
    rw [List.mem_dedup] at hq
    obtain ⟨row', hrow', hq'⟩ := List.mem_map.mp hq
    obtain ⟨-, hkeep⟩ := List.mem_filter.mp hrow'
    have hpath' : nirPath? row' = some b.path := by
      have : q.2 = nirPath? row' := by rw [← hq']
      rw [← this, hqp]
    have hany : ((matchedDf threshNanos joint).any
        fun m => optPathEq (nirPath? m) (nirPath? row')) = true := by
      refine List.any_eq_true.mpr ⟨row, hrowm, ?_⟩
      rw [hpath']
      unfold nirPath? optPathEq
      rw [hb]
      simp
    rw [hany] at hkeep
    exact Bool.noConfusion hkeep

/-- Witness for C5: a 200 ms delta against a 200 ms threshold. -/
theorem c5_threshold_boundary_inclusive_witness :
    mkRow (some ⟨"a", "a", 0, 100⟩) (some ⟨"b", "b", 200, 100⟩) ∈
      matchedDf 200000000
        [mkRow (some ⟨"a", "a", 0, 100⟩) (some ⟨"b", "b", 200, 100⟩)] ∧
    (∀ q ∈ unmatchedRgbDf 200000000
        [mkRow (some ⟨"a", "a", 0, 100⟩) (some ⟨"b", "b", 200, 100⟩)],
      q.2 ≠ some (Entity.path ⟨"a", "a", 0, 100⟩)) ∧
    (∀ q ∈ unmatchedNirDf 200000000
        [mkRow (some ⟨"a", "a", 0, 100⟩) (some ⟨"b", "b", 200, 100⟩)],
      q.2 ≠ some (Entity.path ⟨"b", "b", 200, 100⟩)) :=
  c5_threshold_boundary_inclusive
    [mkRow (some ⟨"a", "a", 0, 100⟩) (some ⟨"b", "b", 200, 100⟩)]
    200000000 200000
    (mkRow (some ⟨"a", "a", 0, 100⟩) (some ⟨"b", "b", 200, 100⟩))
    ⟨"a", "a", 0, 100⟩ ⟨"b", "b", 200, 100⟩
    (List.mem_singleton.mpr rfl) rfl rfl rfl (by decide)

/-- C6: on a non-empty collection sorted ascending by timestamp, the
asof-nearest lookup returns an entity minimizing the absolute timestamp
difference to the target, and whenever another element ties at the
minimal difference with a different timestamp, the returned entity's
timestamp lies before the target (ties prefer the earlier side). -/
theorem c6_nearest_minimizes_ties_earlier (t : Int) (l : List Entity)
    (hs : List.Pairwise (fun a b : Entity => a.datetime ≤ b.datetime) l)
    (hne : l ≠ []) :
    ∃ v, nearest t l = some v ∧ v ∈ l ∧
      (∀ u ∈ l, |v.datetime - t| ≤ |u.datetime - t|) ∧
      (∀ u ∈ l, |u.datetime - t| = |v.datetime - t| → u.datetime ≠ v.datetime →
        v.datetime < t) := by
  match l with
  | [] => exact absurd rfl hne
  | e :: es =>
    have hees : ∀ u ∈ es, e.datetime ≤ u.datetime := (List.pairwise_cons.mp hs).1
    by_cases h1 : t ≤ e.datetime
    · refine ⟨e, by simp only [nearest, if_pos h1], List.mem_cons_self e es, ?_, ?_⟩
      · intro u hu
        rcases List.mem_cons.mp hu with rfl | hu'
        · exact le_refl _
        · have heu : e.datetime ≤ u.datetime := hees u hu'
          rw [abs_sub_of_ge h1, abs_sub_of_ge (le_trans h1 heu)]
          omega
      · intro u hu htie hne'
        exfalso
        rcases List.mem_cons.mp hu with rfl | hu'
        · exact hne' rfl
        · have heu : e.datetime ≤ u.datetime := hees u hu'
          rw [abs_sub_of_ge h1, abs_sub_of_ge (le_trans h1 heu)] at htie
          omega
    · push_neg at h1
      obtain ⟨hmin, htie⟩ := nearestFrom_spec t e es h1 hs
      exact ⟨nearestFrom t e es, by simp only [nearest, if_neg (not_le.mpr h1)],
        nearestFrom_mem t e es, hmin, htie⟩

/-- Witness for C6: target time 2 between entities at times 1 and 3 — the
earlier entity wins the tie. -/
theorem c6_nearest_minimizes_ties_earlier_witness :
    ∃ v, nearest 2 [(⟨"a", "a", 1, 9⟩ : Entity), ⟨"b", "b", 3, 9⟩] = some v ∧
      v ∈ [(⟨"a", "a", 1, 9⟩ : Entity), ⟨"b", "b", 3, 9⟩] ∧
      (∀ u ∈ [(⟨"a", "a", 1, 9⟩ : Entity), ⟨"b", "b", 3, 9⟩],
        |v.datetime - 2| ≤ |u.datetime - 2|) ∧
      (∀ u ∈ [(⟨"a", "a", 1, 9⟩ : Entity), ⟨"b", "b", 3, 9⟩],
        |u.datetime - 2| = |v.datetime - 2| → u.datetime ≠ v.datetime →
        v.datetime < 2) :=
  c6_nearest_minimizes_ties_earlier 2 [⟨"a", "a", 1, 9⟩, ⟨"b", "b", 3, 9⟩]
    (by simp) (by simp)

/-- C7: a timestamp-parse or metadata failure on any single discovered
file in either channel makes the whole run abort with no filesystem
operation recorded: the returned operation list is empty and the result
is an error (a stem shorter than 16 bytes aborts via the modelled panic
value rather than a returned error, likewise before any move). -/
theorem c7_build_failure_aborts_before_any_move
    (rgbExists nirExists : Bool) (rgbDir nirDir : String)
    (rgbFiles nirFiles : List RawFile) (threshNanos : Int)
    (keepEmptyFiles dryRun : Bool)
    (h : ∃ f ∈ rgbFiles ++ nirFiles, buildFails f) :
    (processImages rgbExists nirExists rgbDir nirDir rgbFiles nirFiles
      threshNanos keepEmptyFiles dryRun).1 = [] ∧
    ∃ e, (processImages rgbExists nirExists rgbDir nirDir rgbFiles nirFiles
      threshNanos keepEmptyFiles dryRun).2 = .error e := by
  obtain ⟨f, hf, hfail⟩ := h
  cases rgbExists with
  | false => exact ⟨rfl, .bothDirsMissing, rfl⟩
  | true =>
    cases nirExists with
    | false => exact ⟨rfl, .bothDirsMissing, rfl⟩
    | true =>
      rcases List.mem_append.mp hf with hfr | hfn
      · obtain ⟨e, he⟩ := makeIiqDf_error_of_buildFails hfr hfail
        simp [processImages, he]
      · obtain ⟨e, he⟩ := makeIiqDf_error_of_buildFails hfn hfail
        cases hr : makeIiqDf rgbFiles with
        | error e0 => simp [processImages, hr]
        | ok dts => simp [processImages, hr, he]

/-- Witness for C7: a single NIR file with a 16-byte stem that does not
parse. -/
theorem c7_build_failure_aborts_witness :
    (processImages true true "rgb" "nir" []
      [⟨"nir/bad.iiq", "aaaaaa_bbbbbbbbb", some 1⟩] 0 true true).1 = [] ∧
    ∃ e, (processImages true true "rgb" "nir" []
      [⟨"nir/bad.iiq", "aaaaaa_bbbbbbbbb", some 1⟩] 0 true true).2 = .error e :=
  c7_build_failure_aborts_before_any_move true true "rgb" "nir" []
    [⟨"nir/bad.iiq", "aaaaaa_bbbbbbbbb", some 1⟩] 0 true true (by decide)

/-- C8: a dry run records no filesystem operation at all (no rename and
no directory creation), while the five returned counts are exactly those
of the corresponding non-dry run on the same input. -/
theorem c8_dry_run_no_ops_same_counts (rgbExists nirExists : Bool)
    (rgbDir nirDir : String) (rgbFiles nirFiles : List RawFile)
    (threshNanos : Int) (keepEmptyFiles : Bool) :
    (processImages rgbExists nirExists rgbDir nirDir rgbFiles nirFiles
      threshNanos keepEmptyFiles true).1 = [] ∧
    (processImages rgbExists nirExists rgbDir nirDir rgbFiles nirFiles
      threshNanos keepEmptyFiles true).2 =
    (processImages rgbExists nirExists rgbDir nirDir rgbFiles nirFiles
      threshNanos keepEmptyFiles false).2 := by
  unfold processImages
  cases rgbExists <;> cases nirExists <;>
    first
      | exact ⟨rfl, rfl⟩
      | (cases makeIiqDf rgbFiles <;> cases makeIiqDf nirFiles <;> exact ⟨rfl, rfl⟩)

/-- C10: whenever at least one channel directory is missing, the error is
the combined "RGB and NIR directories do not exist" one; the two branches
reporting a single missing directory are unreachable for every input. -/
theorem c10_dir_check_combined_error_only (rgbExists nirExists : Bool)
    (rgbDir nirDir : String) (rgbFiles nirFiles : List RawFile)
    (threshNanos : Int) (keepEmptyFiles dryRun : Bool) :
    ((rgbExists = false ∨ nirExists = false) →
      (processImages rgbExists nirExists rgbDir nirDir rgbFiles nirFiles
        threshNanos keepEmptyFiles dryRun).2 = .error .bothDirsMissing) ∧
    (processImages rgbExists nirExists rgbDir nirDir rgbFiles nirFiles
      threshNanos keepEmptyFiles dryRun).2 ≠ .error .rgbDirMissing ∧
    (processImages rgbExists nirExists rgbDir nirDir rgbFiles nirFiles
      threshNanos keepEmptyFiles dryRun).2 ≠ .error .nirDirMissing := by
  cases rgbExists with
  | false =>
    cases nirExists <;> exact ⟨fun _ => rfl, by simp [processImages], by simp [processImages]⟩
  | true =>
    cases nirExists with
    | false => exact ⟨fun _ => rfl, by simp [processImages], by simp [processImages]⟩
    | true =>
      refine ⟨fun h => ?_, ?_, ?_⟩
      · rcases h with h | h <;> exact Bool.noConfusion h
      · cases hr : makeIiqDf rgbFiles with
        | error e => simp [processImages, hr]
        | ok d1 =>
          cases hn : makeIiqDf nirFiles with
          | error e => simp [processImages, hr, hn]
          | ok d2 => simp [processImages, hr, hn]
      · cases hr : makeIiqDf rgbFiles with
        | error e => simp [processImages, hr]
        | ok d1 =>
          cases hn : makeIiqDf nirFiles with
          | error e => simp [processImages, hr, hn]
          | ok d2 => simp [processImages, hr, hn]

/-- Witness for C10 with the RGB directory missing. -/
theorem c10_dir_check_combined_error_only_witness :
    (processImages false true "r" "n" [] [] 0 true true).2 =
      .error .bothDirsMissing :=
  (c10_dir_check_combined_error_only false true "r" "n" [] [] 0 true true).1
    (Or.inl rfl)

end IxMatch
